import Mathlib

/-!
Verification development for the j-archive episode extraction pipeline.

The Lean definitions below are shallow embeddings of the Python source:
`src/scraper/parsers.py`, `src/scraper/parser_utils.py`,
`src/scraper/episode_scraper.py` (and the equivalent copies in
`src/scraper/utils/parsers.py` / `src/j_archive_scraper.py`).
Pandas DataFrames are modelled as lists of records; `np.nan` / `None`
cells are modelled with `Option`; operations that raise Python
exceptions return `Except String`.
-/

namespace JArchive

/-- Python `datetime.date`, ordered lexicographically like Python dates. -/
structure PyDate where
  year : Nat
  month : Nat
  day : Nat
deriving DecidableEq, Repr

/-- Python `date` comparison `a <= b` (lexicographic on year, month, day). -/
def PyDate.le (a b : PyDate) : Bool :=
  decide (a.year < b.year) ||
    (decide (a.year = b.year) &&
      (decide (a.month < b.month) ||
        (decide (a.month = b.month) && decide (a.day ≤ b.day))))

/-- One entry of the `responders` list built by `parse_response`:
`{'name': ..., 'was_correct': ...}` where either field may be Python `None`. -/
structure Responder where
  name : Option String
  was_correct : Option Bool
deriving DecidableEq, Repr

/-- The response fragment embedded in a clue cell's `onmouseover` markup:
the `.correct_response` text, the text of the (at most one, via
`select_one`) element tagged `.right`, and the texts of the elements
tagged `.wrong` in document order. -/
structure ResponseFragment where
  correct_response : String
  right : Option String
  wrong : List String
deriving DecidableEq, Repr

/-- One `.clue` cell of a round board, as read from the markup:
`blank` is true when `clue_html.text.strip()` is empty; `dd` is the text
of `.clue_value_daily_double` when present; `value_text` is the text of
`.clue_value`; `clue_id` is the last `=`-component of the embedded href;
`answer` is the `.clue_text` text; `order_num` is the
`.clue_order_number` text. -/
structure ClueCell where
  blank : Bool
  dd : Option String
  value_text : String
  clue_id : String
  answer : String
  order_num : String
  response : ResponseFragment
deriving DecidableEq, Repr

/-- A clue's value column entry: either the raw string parsed from markup
or the integer filled in by `infer_missing_value` (the column is a mixed
object column in pandas). -/
abbrev CellValue := String ⊕ Int

/-- Python `str.replace`: replace all non-overlapping occurrences of
`pattern` scanning left to right. Written with structural fuel recursion
so that it evaluates inside the kernel; fuel `s.length` always suffices.
(An empty pattern leaves the string unchanged; the pipeline only ever
replaces the non-empty `'DD: '`, `'$'` and `','`.) -/
def replaceGo (pattern repl : List Char) : Nat → List Char → List Char
  | 0, s => s
  | _ + 1, [] => []
  | fuel + 1, c :: rest =>
    if pattern.isPrefixOf (c :: rest) then
      repl ++ replaceGo pattern repl fuel ((c :: rest).drop pattern.length)
    else c :: replaceGo pattern repl fuel rest

def pyReplace (s pattern repl : String) : String :=
  if pattern.data.isEmpty then s
  else ⟨replaceGo pattern.data repl.data s.data.length s.data⟩

/-- Result of `parse_value`. -/
structure ValueDict where
  value : Option String
  was_daily_double : Bool
  wager : Option String
deriving DecidableEq, Repr

/-- Function `parse_value` (src/scraper/parsers.py): daily-double marker present →
value None, wager normalized from the marker text; otherwise value is the
currency-normalized `.clue_value` text. -/
def parse_value (c : ClueCell) : ValueDict :=
  match c.dd with
  | some ddText =>
      { value := none,
        was_daily_double := true,
        wager := some (pyReplace (pyReplace (pyReplace ddText "DD: " "") "$" "") "," "") }
  | none =>
      { value := some (pyReplace (pyReplace c.value_text "$" "") "," ""),
        was_daily_double := false,
        wager := none }

/-- Result of `parse_response`. -/
structure ResponseRecord where
  correct_response : String
  responders : List Responder
  was_triple_stumper : Bool
deriving DecidableEq, Repr

/-- Function `parse_response` (src/scraper/parsers.py): one correct attempt from the
`.right` element if present, then the `.wrong` elements in order, except
that a literal `Triple Stumper` text only sets the flag; an empty attempt
list is replaced by a single no-attempt record with the flag forced true. -/
def parse_response (frag : ResponseFragment) : ResponseRecord :=
  let correctOnes : List Responder :=
    match frag.right with
    | some n => [{ name := some n, was_correct := some true }]
    | none => []
  let incorrectOnes : List Responder :=
    (frag.wrong.filter (fun t => t ≠ "Triple Stumper")).map
      (fun t => { name := some t, was_correct := some false })
  let responders := correctOnes ++ incorrectOnes
  let ts := frag.wrong.contains "Triple Stumper"
  if responders.isEmpty then
    { correct_response := frag.correct_response,
      responders := [{ name := none, was_correct := none }],
      was_triple_stumper := true }
  else
    { correct_response := frag.correct_response,
      responders := responders,
      was_triple_stumper := ts }

/-- One row of the per-round clue DataFrame built by `parse_clues`.
`np.nan` entries are `none`; note that for an unrevealed clue every field
except `responders` and `was_revealed` is NaN (in particular
`was_triple_stumper` is NaN, not a boolean). -/
structure ClueDict where
  clue_id : Option String
  clue_location : Option String
  answer : Option String
  order_num : Option String
  value : Option CellValue
  was_daily_double : Option Bool
  wager : Option String
  correct_response : Option String
  responders : List Responder
  was_triple_stumper : Option Bool
  was_revealed : Bool
deriving DecidableEq, Repr

/-- The per-cell body of the `parse_clues` loop. -/
def parse_clue_cell (c : ClueCell) : ClueDict :=
  if c.blank then
    { clue_id := none, clue_location := none, answer := none, order_num := none,
      value := none, was_daily_double := none, wager := none,
      correct_response := none,
      responders := [{ name := none, was_correct := none }],
      was_triple_stumper := none, was_revealed := false }
  else
    let v := parse_value c
    let r := parse_response c.response
    { clue_id := some c.clue_id, clue_location := none, answer := some c.answer,
      order_num := some c.order_num,
      value := v.value.map Sum.inl,
      was_daily_double := some v.was_daily_double,
      wager := v.wager,
      correct_response := some r.correct_response,
      responders := r.responders,
      was_triple_stumper := some r.was_triple_stumper,
      was_revealed := true }

/-- Function `parse_clues`: the cells of one round board, in markup traversal order. -/
def parse_clues (cells : List ClueCell) : List ClueDict :=
  cells.map parse_clue_cell

/-- A round row once `parse_rounds` has added the `category` and
`round_num` columns. -/
structure RoundRow extends ClueDict where
  category : String
  round_num : Nat
deriving DecidableEq, Repr

/-- One round board: the `.category_name` texts (declared left-to-right
order, from `parse_category_name`) and the `.clue` cells in traversal
order. -/
structure Board where
  categories : List String
  cells : List ClueCell
deriving DecidableEq, Repr

/-- Python `categories * 5`: the category list repeated five times. -/
def cats5 (cats : List String) : List String :=
  cats ++ (cats ++ (cats ++ (cats ++ cats)))

/-- The fixed 30-coordinate lookup table of `infer_clue_location`. -/
def clue_locations : List String :=
  ["J_1_1", "J_2_1", "J_3_1", "J_4_1", "J_5_1", "J_6_1",
   "J_1_2", "J_2_2", "J_3_2", "J_4_2", "J_5_2", "J_6_2",
   "J_1_3", "J_2_3", "J_3_3", "J_4_3", "J_5_3", "J_6_3",
   "J_1_4", "J_2_4", "J_3_4", "J_4_4", "J_5_4", "J_6_4",
   "J_1_5", "J_2_5", "J_3_5", "J_4_5", "J_5_5", "J_6_5"]

/-- Function `infer_clue_location` (src/scraper/parser_utils.py): assigning the
30-element list to the `clue_location` column raises a pandas length
mismatch `ValueError` unless the DataFrame has exactly 30 rows; then the
`np.where` line puts a `D` in front of the coordinate on rows whose
`round_num` is 2. -/
def infer_clue_location (rows : List RoundRow) : Except String (List RoundRow) :=
  if rows.length = clue_locations.length then
    Except.ok
      (((rows.zip clue_locations).map
          (fun rl => { rl.1 with clue_location := some rl.2 })).map
        (fun row =>
          if row.round_num = 2 then
            { row with clue_location := row.clue_location.map (fun l => "D" ++ l) }
          else row))
  else Except.error "Length of values does not match length of index"

/-- The column operation `df['clue_location'].str[-1].astype(int)` applied to one cell: the last
character of the string parsed as an integer digit; `none` models the
`ValueError`/`TypeError` raised by `astype` on a non-digit or missing
entry. -/
def last_char_int (s : String) : Option Int :=
  match s.data.getLast? with
  | some c => if c.isDigit then some ((c.toNat : Int) - 48) else none
  | none => none

/-- Monadic map over `Option`, written out structurally (a whole-column
pandas operation fails if it fails on any cell). -/
def mapOpt (f : α → Option β) : List α → Option (List β)
  | [] => some []
  | a :: l =>
    match f a, mapOpt f l with
    | some b, some bs => some (b :: bs)
    | _, _ => none

/-- The era multiplier `money_multiple = 200 if dt >= date(2001, 11, 26) else 100`. -/
def money_mult (dt : PyDate) : Int :=
  if PyDate.le ⟨2001, 11, 26⟩ dt then 200 else 100

/-- Function `infer_missing_value` (src/scraper/parser_utils.py): the era multiplier
is 200 from 2001-11-26 on, else 100, and `fillna` replaces every missing
`value` (daily doubles and unrevealed clues alike) by
`round_num * int(clue_location[-1]) * multiplier`. -/
def infer_missing_value (rows : List RoundRow) (dt : PyDate) : Except String (List RoundRow) :=
  match mapOpt (fun row => row.clue_location.bind last_char_int) rows with
  | none => Except.error "cannot convert non-finite or non-digit values to integer"
  | some ks =>
    Except.ok
      ((rows.zip ks).map
        (fun rk =>
          match rk.1.value with
          | some _ => rk.1
          | none =>
            { rk.1 with
                value := some (Sum.inr ((rk.1.round_num : Int) * rk.2 * money_mult dt)) }))

/-- The per-board body of the `parse_rounds` loop: parse the clues, assign
`categories * 5` (a pandas column assignment, which raises on a length
mismatch), set `round_num`, then run the two inference passes. -/
def parse_round (round_num : Nat) (b : Board) (dt : PyDate) : Except String (List RoundRow) :=
  if (parse_clues b.cells).length = (cats5 b.categories).length then
    match
      infer_clue_location
        ((((parse_clues b.cells).zip (cats5 b.categories)).map
            (fun rc => ({ toClueDict := rc.1, category := rc.2, round_num := 0 } : RoundRow))).map
          (fun row => { row with round_num := round_num }))
    with
    | Except.error e => Except.error e
    | Except.ok rows3 => infer_missing_value rows3 dt
  else Except.error "Length of values does not match length of index"

/-- Monadic map over `Except`, written out structurally (the Python loop
raises at the first failing element). -/
def mapExcept (f : α → Except String β) : List α → Except String (List β)
  | [] => Except.ok []
  | a :: l =>
    match f a, mapExcept f l with
    | Except.ok b, Except.ok bs => Except.ok (b :: bs)
    | Except.error e, _ => Except.error e
    | Except.ok _, Except.error e => Except.error e

/-- Function `parse_rounds` (src/scraper/parsers.py): enumerate the `.round` boards,
giving round numbers 1, 2, ..., and concatenate the per-round frames. -/
def parse_rounds (boards : List Board) (dt : PyDate) : Except String (List RoundRow) :=
  match mapExcept (fun nb => parse_round (nb.1 + 1) nb.2 dt) boards.enum with
  | Except.error e => Except.error e
  | Except.ok dfs => Except.ok dfs.flatten

/-- Input to `parse_fj`: the final-round category and clue text, the texts
of the `.right` elements of the response fragment (`select`, so possibly
several), the `em` element texts (the correct response is the last one),
and the response `tr` rows, each given as the list of its `td` texts. -/
structure FJInput where
  category : String
  answer : String
  right : List String
  ems : List String
  table : List (List String)
deriving DecidableEq, Repr

/-- One row of the Final Jeopardy DataFrame built by `parse_fj`. -/
structure FJRecord where
  name : String
  wager : String
  clue_id : Option String
  clue_location : String
  answer : String
  category : String
  correct_response : String
  round_num : Nat
  was_daily_double : Bool
  order_num : Nat
  was_correct : Bool
  was_triple_stumper : Bool
  value : Option Int
  was_revealed : Bool
deriving DecidableEq, Repr

/-- The row-pairing loop of `parse_fj`: an even-indexed `tr` starts a row,
the following odd-indexed `tr` completes it; a trailing unpaired row is
never appended. -/
def pair_rows : List (List String) → List (List String)
  | a :: b :: rest => (a ++ b) :: pair_rows rest
  | _ => []

/-- A paired row must have exactly the three columns
`['name', 'response', 'wager']` that `pd.DataFrame` is given, else the
constructor raises. -/
def fj_columns (row : List String) : Except String (String × String) :=
  match row with
  | [n, _resp, w] => Except.ok (n, w)
  | _ => Except.error "columns passed, passed data had different shape"

/-- Function `parse_fj` (src/scraper/parsers.py): the correct response is the last
`em` text (`select('em')[-1]`, IndexError when absent); each contestant
attempt comes from one (even, odd) pair of table rows; the wager is
currency-normalized; `was_correct` is membership of the raw name in the
`.right` texts; `was_triple_stumper` is true exactly when there is no
`.right` element; `value` stays None and `clue_location` is the `FJ`
sentinel. -/
def parse_fj (fj : FJInput) : Except String (List FJRecord) :=
  match fj.ems.getLast? with
  | none => Except.error "list index out of range"
  | some correct_response =>
    match mapExcept fj_columns (pair_rows fj.table) with
    | Except.error e => Except.error e
    | Except.ok nws =>
      Except.ok
        (nws.map (fun nw =>
          { name := nw.1,
            wager := pyReplace (pyReplace nw.2 "$" "") "," "",
            clue_id := none,
            clue_location := "FJ",
            answer := fj.answer,
            category := fj.category,
            correct_response := correct_response,
            round_num := 3,
            was_daily_double := false,
            order_num := 1,
            was_correct := fj.right.contains nw.1,
            was_triple_stumper := fj.right.isEmpty,
            value := none,
            was_revealed := true }))

/-- One row of the flattened per-(clue, attempt) episode DataFrame
(`pd.json_normalize` with `record_path='responders'` in
`scrape_episode`), after the `astype` pass has made `order_num`
numeric. -/
structure EpisodeRow where
  name : Option String
  was_correct : Option Bool
  clue_id : Option String
  clue_location : Option String
  answer : Option String
  order_num : Option Int
  value : Option CellValue
  was_daily_double : Option Bool
  correct_response : Option String
  category : Option String
  round_num : Nat
  was_triple_stumper : Option Bool
  wager : Option String
  was_revealed : Bool
deriving DecidableEq, Repr

/-- The call `pd.json_normalize(..., record_path='responders', meta=[...])`: one
output row per responder of each round row, carrying the clue's fields;
`order_num` is parsed to a number as the later
`astype(col_order_and_dtypes)` does. -/
def flatten_round_rows (rows : List RoundRow) : List EpisodeRow :=
  rows.flatMap (fun row =>
    row.responders.map (fun resp =>
      { name := resp.name,
        was_correct := resp.was_correct,
        clue_id := row.clue_id,
        clue_location := row.clue_location,
        answer := row.answer,
        order_num := row.order_num.bind String.toInt?,
        value := row.value,
        was_daily_double := row.was_daily_double,
        correct_response := row.correct_response,
        category := some row.category,
        round_num := row.round_num,
        was_triple_stumper := row.was_triple_stumper,
        wager := row.wager,
        was_revealed := row.was_revealed }))

/-- A Final Jeopardy record as a row of the concatenated episode frame. -/
def fj_record_row (rec : FJRecord) : EpisodeRow :=
  { name := some rec.name,
    was_correct := some rec.was_correct,
    clue_id := rec.clue_id,
    clue_location := some rec.clue_location,
    answer := some rec.answer,
    order_num := some (rec.order_num : Int),
    value := rec.value.map Sum.inr,
    was_daily_double := some rec.was_daily_double,
    correct_response := some rec.correct_response,
    category := some rec.category,
    round_num := rec.round_num,
    was_triple_stumper := some rec.was_triple_stumper,
    wager := some rec.wager,
    was_revealed := rec.was_revealed }

/-- The call `pd.concat([rounds_df, final_jep_df])`: the pre-sort episode row
sequence. -/
def episode_rows (rows : List RoundRow) (fjrecs : List FJRecord) : List EpisodeRow :=
  flatten_round_rows rows ++ fjrecs.map fj_record_row

/-- The sort key of `sort_values(by=['round_num', 'order_num'])` after the
numeric `astype`: lexicographic on round then order, with a missing
(NaN) `order_num` placed last within its round (`na_position='last'`). -/
def keyOf (row : EpisodeRow) : Nat ×ₗ (Nat ×ₗ Int) :=
  toLex (row.round_num,
    toLex ((if row.order_num.isSome then 0 else 1), row.order_num.getD 0))

/-- The row comparison used by the sort. -/
def keyLe (a b : EpisodeRow) : Prop := keyOf a ≤ keyOf b

instance : DecidableRel keyLe := fun a b =>
  inferInstanceAs (Decidable (keyOf a ≤ keyOf b))

instance : IsTotal EpisodeRow keyLe := ⟨fun a b => le_total (keyOf a) (keyOf b)⟩

instance : IsTrans EpisodeRow keyLe := ⟨fun _ _ _ h1 h2 => le_trans h1 h2⟩

/-- The call `episode_df.sort_values(by=['round_num', 'order_num'])`: a stable sort
on the two-column key (pandas multi-column sorts go through the stable
`np.lexsort`). -/
def sortRows (rows : List EpisodeRow) : List EpisodeRow :=
  List.insertionSort keyLe rows

/-- The assembled, ordered per-game row sequence of `scrape_episode`. -/
def assemble_episode (rows : List RoundRow) (fjrecs : List FJRecord) : List EpisodeRow :=
  sortRows (episode_rows rows fjrecs)

/-- Length of the longest common run starting at the heads of the two
character lists. -/
def commonRun : List Char → List Char → Nat
  | a :: as, b :: bs => if a = b then commonRun as bs + 1 else 0
  | _, _ => 0

/-- Python `difflib.SequenceMatcher.find_longest_match` for short (junk-free)
sequences: the longest common substring, preferring the earliest start in
`a`, then the earliest start in `b`; returns `(i, j, size)`. -/
def findLongestMatch (a b : List Char) : Nat × Nat × Nat :=
  ((List.range a.length).flatMap
      (fun i => (List.range b.length).map (fun j => (i, j)))).foldl
    (fun best ij =>
      let k := commonRun (a.drop ij.1) (b.drop ij.2)
      if best.2.2 < k then (ij.1, ij.2, k) else best)
    (0, 0, 0)

/-- Total size of `get_matching_blocks`: recursively split around the
longest match; `fuel` bounds the recursion depth and
`a.length + b.length + 1` always suffices. -/
def matchedTotal : Nat → List Char → List Char → Nat
  | 0, _, _ => 0
  | fuel + 1, a, b =>
    let m := findLongestMatch a b
    if m.2.2 = 0 then 0
    else
      matchedTotal fuel (a.take m.1) (b.take m.2.1) + m.2.2 +
        matchedTotal fuel (a.drop (m.1 + m.2.2)) (b.drop (m.2.1 + m.2.2))

/-- Numerator `2M` of the difflib ratio of `x` against `word`. -/
def ratioNum (x word : String) : Nat :=
  2 * matchedTotal (x.length + word.length + 1) x.data word.data

/-- Denominator `T = len(x) + len(word)` of the difflib ratio. -/
def ratioDen (x word : String) : Nat := x.length + word.length

/-- The rational value of a ratio fraction (`1.0` when both strings are
empty, as `_calculate_ratio` returns). -/
def ratioValQ (nd : Nat × Nat) : ℚ :=
  if nd.2 = 0 then 1 else (nd.1 : ℚ) / (nd.2 : ℚ)

/-- The value `SequenceMatcher(None, x, word).ratio()`: `2M / T`, exactly in `ℚ`. -/
def ratio (x word : String) : ℚ :=
  ratioValQ (ratioNum x word, ratioDen x word)

/-- The test `cutoff ≤ n/d` decided by integer cross-multiplication (the ratio
fractions are compared exactly; scores are kept as `(2M, T)` pairs so
the whole scan evaluates inside the kernel). -/
def ratioReaches (c : ℚ) (n d : Nat) : Bool :=
  if d = 0 then decide (c.num ≤ (c.den : Int))
  else decide (c.num * (d : Int) ≤ (n : Int) * (c.den : Int))

/-- Strict comparison of two ratio fractions by cross-multiplication. -/
def fracLt (n1 d1 n2 d2 : Nat) : Bool :=
  if d1 = 0 then (if d2 = 0 then false else decide (d2 < n2))
  else if d2 = 0 then decide (n1 < d1)
  else decide (n1 * d2 < n2 * d1)

/-- Equality of two ratio fractions by cross-multiplication. -/
def fracEq (n1 d1 n2 d2 : Nat) : Bool :=
  if d1 = 0 then (if d2 = 0 then true else decide (n2 = d2))
  else if d2 = 0 then decide (n1 = d1)
  else decide (n1 * d2 = n2 * d1)

/-- Python tuple comparison `(ratio1, name1) < (ratio2, name2)`: ratio
values first (as exact rationals), names lexicographically on ties. -/
def scoredLt (a b : (Nat × Nat) × String) : Bool :=
  fracLt a.1.1 a.1.2 b.1.1 b.1.2 ||
    (fracEq a.1.1 a.1.2 b.1.1 b.1.2 && decide (a.2 < b.2))

/-- The scored candidate list of `get_close_matches`: every possibility
whose ratio against the word reaches the cutoff, paired with its ratio
fraction. -/
def scored_candidates (word : String) (possibilities : List String) (cutoff : ℚ) :
    List ((Nat × Nat) × String) :=
  possibilities.filterMap
    (fun x =>
      if ratioReaches cutoff (ratioNum x word) (ratioDen x word) then
        some ((ratioNum x word, ratioDen x word), x)
      else none)

/-- One step of the running-maximum scan: Python tuple comparison of
`(ratio, name)` pairs, keeping the earlier pair on full equality. -/
def nlargest1_step (best : Option ((Nat × Nat) × String)) (c : (Nat × Nat) × String) :
    Option ((Nat × Nat) × String) :=
  match best with
  | none => some c
  | some b => if scoredLt b c then some c else some b

/-- The call `heapq._nlargest(1, result)` on `(ratio, name)` pairs: the maximum in
the lexicographic tuple order (so ratio ties go to the lexicographically
greater name), keeping the earliest among fully equal pairs. -/
def nlargest1 (l : List ((Nat × Nat) × String)) : Option ((Nat × Nat) × String) :=
  l.foldl nlargest1_step none

/-- The call `difflib.get_close_matches(word, possibilities, n=1, cutoff)[0]` as an
`Option` (`none` models the `IndexError` on an empty result). -/
def get_close_matches1 (word : String) (possibilities : List String) (cutoff : ℚ) :
    Option String :=
  (nlargest1 (scored_candidates word possibilities cutoff)).map Prod.snd

/-- The hard-coded `cutoff=0.01` of `name_to_full_name_map`, written as
`mkRat 1 100` so that its numerator and denominator evaluate in the
kernel. -/
def cutoff001 : ℚ := mkRat 1 100

/-- Function `name_to_full_name_map` (src/scraper/parser_utils.py): the contestant
registry is the ordered `{full_name: id}` dict; each observed first name
is resolved with `get_close_matches(..., n=1, cutoff=0.01)` and indexing
`[0]` raises `IndexError` when no candidate reaches the cutoff. Returns
the (first name → full name) and (first name → id) maps as ordered
association lists. -/
def name_to_full_name_map (first_names : List String)
    (full_names_and_ids : List (String × String)) :
    Except String (List (String × String) × List (String × String)) :=
  let contestants_full_names := full_names_and_ids.map Prod.fst
  match
    mapExcept
      (fun fn =>
        match get_close_matches1 fn contestants_full_names cutoff001 with
        | some full =>
          match full_names_and_ids.lookup full with
          | some pid => Except.ok ((fn, full), (fn, pid))
          | none => Except.error "KeyError"
        | none => Except.error "list index out of range")
      first_names
  with
  | Except.error e => Except.error e
  | Except.ok maps => Except.ok (maps.map Prod.fst, maps.map Prod.snd)

/-- Character-wise lowercasing (structural, so it evaluates in the
kernel). -/
def pyLower (s : String) : String := ⟨s.data.map Char.toLower⟩

/-- Modelled from the spec: the case-insensitive similarity ranking the
spec ascribes to NameResolver (spec section 4.8, "a string-similarity
ranking (case-insensitive)"); the source's ranking is the case-sensitive
`ratio` above. Used only to compare the spec's claim with the code. -/
def ratio_case_insensitive (x word : String) : ℚ :=
  ratio (pyLower x) (pyLower word)

/-! ### Closed forms of the round pipeline, proved equal to it below -/

/-- A placeholder cell used only as a `getD` default. -/
def blank_cell : ClueCell :=
  { blank := true, dd := none, value_text := "", clue_id := "", answer := "",
    order_num := "",
    response := { correct_response := "", right := none, wrong := [] } }

/-- The coordinate assigned to traversal position `i` of a round. -/
def loc_at (round_num i : Nat) : String :=
  if round_num = 2 then "D" ++ clue_locations.getD i ""
  else clue_locations.getD i ""

/-- The round row at position `i` after the category / round-number
columns are added. -/
def row_stage2 (round_num : Nat) (b : Board) (i : Nat) : RoundRow :=
  { toClueDict := parse_clue_cell (b.cells.getD i blank_cell),
    category := (cats5 b.categories).getD i "",
    round_num := round_num }

/-- The round row at position `i` after `infer_clue_location`. -/
def row_stage3 (round_num : Nat) (b : Board) (i : Nat) : RoundRow :=
  { row_stage2 round_num b i with clue_location := some (loc_at round_num i) }

/-- The round row at position `i` after `infer_missing_value`: the final
row `parse_round` produces there. -/
def row_at (round_num : Nat) (b : Board) (dt : PyDate) (i : Nat) : RoundRow :=
  match (row_stage3 round_num b i).value with
  | some _ => row_stage3 round_num b i
  | none =>
    { row_stage3 round_num b i with
        value := some (Sum.inr
          ((round_num : Int) * ((i / 6 + 1 : Nat) : Int) * money_mult dt)) }

/-! ### Concrete demonstration inputs -/

/-- A revealed cell with a plain `$200` value and one correct responder. -/
def stdCell (i : Nat) : ClueCell :=
  { blank := false, dd := none, value_text := "$200", clue_id := "10", answer := "a",
    order_num := toString (i + 1),
    response := { correct_response := "x", right := some "Amy", wrong := [] } }

/-- An unrevealed cell (no non-blank text). -/
def blankC : ClueCell :=
  { blank := true, dd := none, value_text := "", clue_id := "", answer := "",
    order_num := "",
    response := { correct_response := "", right := none, wrong := [] } }

/-- A daily-double cell, answered incorrectly by everyone. -/
def ddCell (i : Nat) : ClueCell :=
  { blank := false, dd := some "DD: $1,000", value_text := "", clue_id := "11",
    answer := "d", order_num := toString (i + 1),
    response := { correct_response := "y", right := none,
                  wrong := ["Ben", "Triple Stumper"] } }

def demoCats : List String := ["CA", "CB", "CC", "CD", "CE", "CF"]

/-- Demo board: a daily double at traversal position 4, an unrevealed
cell at traversal position 7, everything else a plain revealed cell. -/
def demoBoard : Board :=
  { categories := demoCats,
    cells := (List.range 30).map
      (fun i => if i = 7 then blankC else if i = 4 then ddCell i else stdCell i) }

def d2010 : PyDate := ⟨2010, 1, 1⟩

/-- Final-round demo input: two contestants, both correct. -/
def fjDemoBothRight : FJInput :=
  { category := "FC", answer := "fa", right := ["Alice", "Bob"],
    ems := ["who is Z?"],
    table := [["Alice", "who is Z?"], ["$1,000"], ["Bob", "who is Z?"], ["2000"]] }

/-- Final-round demo input: one correct contestant, one incorrect. -/
def fjDemoOneRight : FJInput :=
  { category := "FC", answer := "fa", right := ["Alice"],
    ems := ["who is Z?"],
    table := [["Alice", "who is Z?"], ["$1,000"], ["Bob", "what is Q?"], ["2000"]] }

/-- The rows `parse_fj` produces on `fjDemoOneRight` (checked by `rfl`
below). -/
def recsDemoOneRight : List FJRecord :=
  [{ name := "Alice", wager := "1000", clue_id := none, clue_location := "FJ",
     answer := "fa", category := "FC", correct_response := "who is Z?",
     round_num := 3, was_daily_double := false, order_num := 1,
     was_correct := true, was_triple_stumper := false, value := none,
     was_revealed := true },
   { name := "Bob", wager := "2000", clue_id := none, clue_location := "FJ",
     answer := "fa", category := "FC", correct_response := "who is Z?",
     round_num := 3, was_daily_double := false, order_num := 1,
     was_correct := false, was_triple_stumper := false, value := none,
     was_revealed := true }]

/-- The contestant registry of the spec's NameResolver example. -/
def demoRegistry : List (String × String) :=
  [("Jerome Wilson", "1"), ("Jenny Ames", "2")]

/-- An all-caps one-name registry, for the case-sensitivity check. -/
def demoRegistryCaps : List (String × String) := [("AB", "1")]

/-- A response fragment with one wrong responder and no `Triple Stumper`
marker (a markup shape the regular-round classifier accepts). -/
def fragWrongOnly : ResponseFragment :=
  { correct_response := "z", right := none, wrong := ["Alice"] }

/-- A response fragment whose marker agrees with the absence of a correct
responder. -/
def fragMarkerOnly : ResponseFragment :=
  { correct_response := "z", right := none, wrong := ["Ben", "Triple Stumper"] }

/-! ### Helper lemmas -/

theorem getElem?_zip (l : List α) (l' : List β) (i : Nat) :
    (l.zip l')[i]? =
      match l[i]?, l'[i]? with
      | some a, some b => some (a, b)
      | _, _ => none := by
  simp only [List.zip, List.getElem?_zipWith]
  cases l[i]? <;> cases l'[i]? <;> rfl

theorem getD_map (f : α → β) (l : List α) (d : α) (i : Nat) :
    (l.map f).getD i (f d) = f (l.getD i d) := by
  simp only [List.getD_eq_getElem?_getD, List.getElem?_map]
  cases l[i]? <;> rfl

theorem range_map_getD (n : Nat) (h : Nat → γ) (d : γ) (i : Nat) (hi : i < n) :
    ((List.range n).map h).getD i d = h i := by
  simp [List.getD_eq_getElem?_getD, List.getElem?_map, List.getElem?_range hi]

theorem zip_map_range (da : α) (db : β) (f : α × β → γ) (l : List α) (v : List β)
    (h : l.length = v.length) :
    (l.zip v).map f =
      (List.range l.length).map (fun i => f (l.getD i da, v.getD i db)) := by
  apply List.ext_getElem?
  intro i
  by_cases hi : i < l.length
  · have hv : i < v.length := h ▸ hi
    rw [List.getElem?_map, getElem?_zip, List.getElem?_map, List.getElem?_range hi,
        List.getElem?_eq_getElem hi, List.getElem?_eq_getElem hv]
    simp [List.getD_eq_getElem?_getD, List.getElem?_eq_getElem hi,
      List.getElem?_eq_getElem hv]
  · have h1 : l[i]? = none := List.getElem?_eq_none (by omega)
    have h2 : ((List.range l.length).map
        (fun i => f (l.getD i da, v.getD i db)))[i]? = none :=
      List.getElem?_eq_none (by simpa using by omega)
    rw [List.getElem?_map, getElem?_zip, h1, h2]
    cases v[i]? <;> rfl

theorem mapOpt_eq_map {f : α → Option β} {g : α → β} {l : List α}
    (h : ∀ x ∈ l, f x = some (g x)) : mapOpt f l = some (l.map g) := by
  induction l with
  | nil => rfl
  | cons a l ih =>
    have ha := h a (List.mem_cons_self a l)
    have hl := ih (fun x hx => h x (List.mem_cons_of_mem a hx))
    simp [mapOpt, ha, hl]

theorem mapExcept_ok_length {f : α → Except String β} {l : List α} {l' : List β}
    (h : mapExcept f l = Except.ok l') : l'.length = l.length := by
  induction l generalizing l' with
  | nil => simp [mapExcept] at h; simp [← h]
  | cons a l ih =>
    simp only [mapExcept] at h
    cases hfa : f a with
    | error e => rw [hfa] at h; exact absurd h (by simp)
    | ok b =>
      rw [hfa] at h
      cases hfl : mapExcept f l with
      | error e => rw [hfl] at h; exact absurd h (by simp)
      | ok bs =>
        rw [hfl] at h
        cases h
        simpa using ih hfl

theorem mapExcept_ok_mem {f : α → Except String β} {l : List α} {l' : List β}
    (h : mapExcept f l = Except.ok l') :
    ∀ b ∈ l', ∃ a ∈ l, f a = Except.ok b := by
  induction l generalizing l' with
  | nil => simp [mapExcept] at h; simp [h]
  | cons a l ih =>
    simp only [mapExcept] at h
    cases hfa : f a with
    | error e => rw [hfa] at h; exact absurd h (by simp)
    | ok b0 =>
      rw [hfa] at h
      cases hfl : mapExcept f l with
      | error e => rw [hfl] at h; exact absurd h (by simp)
      | ok bs =>
        rw [hfl] at h
        cases h
        intro b hb
        rcases List.mem_cons.mp hb with hb | hb
        · exact ⟨a, List.mem_cons_self a l, hb ▸ hfa⟩
        · rcases ih hfl b hb with ⟨a', ha', hfa'⟩
          exact ⟨a', List.mem_cons_of_mem a ha', hfa'⟩

/-- Last-character digit of every canonical coordinate at position
`i < 30`, with or without the round-2 `D` in front: the row index
`i / 6 + 1`. -/
theorem loc_at_digit (i : Nat) (hi : i < 30) (r : Nat) :
    last_char_int (loc_at r i) = some ((i / 6 + 1 : Nat) : Int) := by
  by_cases hr : r = 2
  · rw [loc_at, if_pos hr]
    revert hi
    revert i
    decide
  · rw [loc_at, if_neg hr]
    revert hi
    revert i
    decide

/-- Stage 1–2 of `parse_round`: the category / round-number columns, in
closed form. -/
theorem parse_round_stage2 (r : Nat) (b : Board)
    (h6 : b.categories.length = 6) (h30 : b.cells.length = 30) :
    (((parse_clues b.cells).zip (cats5 b.categories)).map
        (fun rc => ({ toClueDict := rc.1, category := rc.2, round_num := 0 } : RoundRow))).map
      (fun row => { row with round_num := r }) =
      (List.range 30).map (fun i => row_stage2 r b i) := by
  have h0 : (parse_clues b.cells).length = 30 := by simp [parse_clues, h30]
  have hc5 : (cats5 b.categories).length = 30 := by simp [cats5, h6]
  rw [zip_map_range (parse_clue_cell blank_cell) "" _ _ _ (by rw [h0, hc5]), h0,
      List.map_map]
  apply List.map_congr_left
  intro i _
  show ({ ({ toClueDict := (parse_clues b.cells).getD i (parse_clue_cell blank_cell),
             category := (cats5 b.categories).getD i "", round_num := 0 } : RoundRow)
          with round_num := r }) = row_stage2 r b i
  rw [parse_clues, getD_map]
  rfl

/-- Stage 3 of `parse_round`: `infer_clue_location` in closed form. -/
theorem infer_clue_location_range (r : Nat) (b : Board) :
    infer_clue_location ((List.range 30).map (fun i => row_stage2 r b i)) =
      Except.ok ((List.range 30).map (fun i => row_stage3 r b i)) := by
  have hlen : ((List.range 30).map (fun i => row_stage2 r b i)).length =
      clue_locations.length := by simp [clue_locations]
  rw [infer_clue_location, if_pos hlen]
  congr 1
  rw [zip_map_range (row_stage2 r b 0) "" _ _ _ hlen]
  simp only [List.length_map, List.length_range, List.map_map]
  apply List.map_congr_left
  intro i hi
  have hii : i < 30 := List.mem_range.mp hi
  show (fun row => if row.round_num = 2 then
        { row with clue_location := row.clue_location.map (fun l => "D" ++ l) }
      else row)
      ({ ((List.range 30).map (fun i => row_stage2 r b i)).getD i (row_stage2 r b 0) with
          clue_location := some (clue_locations.getD i "") } : RoundRow) =
      row_stage3 r b i
  rw [range_map_getD _ _ _ _ hii]
  by_cases hr : r = 2
  · subst hr
    simp [row_stage2, row_stage3, loc_at]
  · simp [row_stage2, row_stage3, loc_at, hr]

/-- Stage 4 of `parse_round`: `infer_missing_value` in closed form. -/
theorem infer_missing_value_range (r : Nat) (b : Board) (dt : PyDate) :
    infer_missing_value ((List.range 30).map (fun i => row_stage3 r b i)) dt =
      Except.ok ((List.range 30).map (row_at r b dt)) := by
  have hbind : ∀ i, i < 30 → (row_stage3 r b i).clue_location.bind last_char_int =
      some ((i / 6 + 1 : Nat) : Int) := by
    intro i hii
    show last_char_int (loc_at r i) = _
    exact loc_at_digit i hii r
  have hdig : ∀ x ∈ (List.range 30).map (fun i => row_stage3 r b i),
      (fun row => row.clue_location.bind last_char_int) x =
        some ((fun row => (row.clue_location.bind last_char_int).getD 0) x) := by
    intro x hx
    rcases List.mem_map.mp hx with ⟨i, hi, rfl⟩
    have hii : i < 30 := List.mem_range.mp hi
    show (row_stage3 r b i).clue_location.bind last_char_int =
        some (((row_stage3 r b i).clue_location.bind last_char_int).getD 0)
    rw [hbind i hii]
    rfl
  rw [infer_missing_value, mapOpt_eq_map hdig]
  show Except.ok _ = _
  congr 1
  rw [zip_map_range (row_stage3 r b 0)
        (((row_stage3 r b 0).clue_location.bind last_char_int).getD 0) _ _ _
        (List.length_map _ _).symm, List.length_map, List.length_range, List.map_map]
  apply List.map_congr_left
  intro i hi
  have hii : i < 30 := List.mem_range.mp hi
  show (fun rk : RoundRow × Int =>
      match rk.1.value with
      | some _ => rk.1
      | none =>
        { rk.1 with
            value := some (Sum.inr ((rk.1.round_num : Int) * rk.2 * money_mult dt)) })
      (((List.range 30).map (fun i => row_stage3 r b i)).getD i (row_stage3 r b 0),
        (((List.range 30).map (fun i => row_stage3 r b i)).map
          (fun row => (row.clue_location.bind last_char_int).getD 0)).getD i
          (((row_stage3 r b 0).clue_location.bind last_char_int).getD 0)) =
      row_at r b dt i
  rw [getD_map (fun row => (row.clue_location.bind last_char_int).getD 0)
        ((List.range 30).map (fun i => row_stage3 r b i)) (row_stage3 r b 0) i,
      range_map_getD _ _ _ _ hii]
  have hk : ((row_stage3 r b i).clue_location.bind last_char_int).getD 0 =
      ((i / 6 + 1 : Nat) : Int) := by rw [hbind i hii]; rfl
  rw [hk]
  have hrn : (row_stage3 r b i).round_num = r := rfl
  show (match (row_stage3 r b i).value with
      | some _ => row_stage3 r b i
      | none =>
        { row_stage3 r b i with
            value := some (Sum.inr (((row_stage3 r b i).round_num : Int) *
              ((i / 6 + 1 : Nat) : Int) * money_mult dt)) }) = row_at r b dt i
  rw [row_at, hrn]

/-- Master characterization of `parse_round` on a well-formed board: it
succeeds and the row at traversal position `i` is `row_at r b dt i`. -/
theorem parse_round_eq (r : Nat) (b : Board) (dt : PyDate)
    (h6 : b.categories.length = 6) (h30 : b.cells.length = 30) :
    parse_round r b dt = Except.ok ((List.range 30).map (row_at r b dt)) := by
  have h0 : (parse_clues b.cells).length = 30 := by simp [parse_clues, h30]
  have hc5 : (cats5 b.categories).length = 30 := by simp [cats5, h6]
  unfold parse_round
  rw [if_pos (h0.trans hc5.symm), parse_round_stage2 r b h6 h30,
      infer_clue_location_range r b]
  exact infer_missing_value_range r b dt

theorem row_at_category (r : Nat) (b : Board) (dt : PyDate) (i : Nat) :
    (row_at r b dt i).category = (cats5 b.categories).getD i "" := by
  unfold row_at
  split <;> rfl

theorem row_at_clue_location (r : Nat) (b : Board) (dt : PyDate) (i : Nat) :
    (row_at r b dt i).clue_location = some (loc_at r i) := by
  unfold row_at
  split <;> rfl

theorem row_at_round_num (r : Nat) (b : Board) (dt : PyDate) (i : Nat) :
    (row_at r b dt i).round_num = r := by
  unfold row_at
  split <;> rfl

theorem row_at_unchanged_of_cell (r : Nat) (b : Board) (dt : PyDate) (i : Nat) :
    (row_at r b dt i).was_revealed =
        (parse_clue_cell (b.cells.getD i blank_cell)).was_revealed ∧
      (row_at r b dt i).responders =
        (parse_clue_cell (b.cells.getD i blank_cell)).responders ∧
      (row_at r b dt i).wager = (parse_clue_cell (b.cells.getD i blank_cell)).wager ∧
      (row_at r b dt i).was_triple_stumper =
        (parse_clue_cell (b.cells.getD i blank_cell)).was_triple_stumper ∧
      (row_at r b dt i).order_num =
        (parse_clue_cell (b.cells.getD i blank_cell)).order_num ∧
      (row_at r b dt i).was_daily_double =
        (parse_clue_cell (b.cells.getD i blank_cell)).was_daily_double := by
  unfold row_at
  split <;> exact ⟨rfl, rfl, rfl, rfl, rfl, rfl⟩

theorem row_at_value_of_none (r : Nat) (b : Board) (dt : PyDate) (i : Nat)
    (h : (parse_clue_cell (b.cells.getD i blank_cell)).value = none) :
    (row_at r b dt i).value =
      some (Sum.inr ((r : Int) * ((i / 6 + 1 : Nat) : Int) * money_mult dt)) := by
  have h3 : (row_stage3 r b i).value = none := h
  unfold row_at
  split
  · rename_i v heq
    rw [h3] at heq
    exact absurd heq (by simp)
  · rfl

theorem row_at_value_of_some (r : Nat) (b : Board) (dt : PyDate) (i : Nat) (v : CellValue)
    (h : (parse_clue_cell (b.cells.getD i blank_cell)).value = some v) :
    (row_at r b dt i).value = some v := by
  have h3 : (row_stage3 r b i).value = some v := h
  unfold row_at
  split
  · rename_i v' heq
    show (row_stage3 r b i).value = some v
    exact h3
  · rename_i heq
    rw [h3] at heq
    exact absurd heq (by simp)

/-- Position `i` of `categories * 5` is category `i % 6` (6 categories). -/
theorem cats5_getD (cats : List String) (h6 : cats.length = 6) (i : Nat) (hi : i < 30) :
    (cats5 cats).getD i "" = cats.getD (i % 6) "" := by
  rcases cats with _ | ⟨a, cats⟩
  · simp at h6
  rcases cats with _ | ⟨b, cats⟩
  · simp at h6
  rcases cats with _ | ⟨c, cats⟩
  · simp at h6
  rcases cats with _ | ⟨d, cats⟩
  · simp at h6
  rcases cats with _ | ⟨e, cats⟩
  · simp at h6
  rcases cats with _ | ⟨f, cats⟩
  · simp at h6
  rcases cats with _ | ⟨g, cats⟩
  · interval_cases i <;> rfl
  · simp at h6

theorem pair_rows_length : ∀ t : List (List String), (pair_rows t).length = t.length / 2
  | [] => rfl
  | [_] => by simp [pair_rows]
  | _ :: _ :: rest => by
    have ih := pair_rows_length rest
    simp only [pair_rows, List.length_cons, ih]
    omega

theorem pair_rows_even_append :
    ∀ t : List (List String), t.length % 2 = 0 →
      ∀ x, pair_rows (t ++ [x]) = pair_rows t
  | [], _, _ => rfl
  | [_], h, _ => by simp at h
  | a :: b :: rest, h, x => by
    have hrest : rest.length % 2 = 0 := by
      simp only [List.length_cons] at h
      omega
    have ih := pair_rows_even_append rest hrest x
    simp only [List.cons_append, pair_rows]
    exact congrArg ((a ++ b) :: ·) ih

/-- Shape of every record `parse_fj` emits: one per complete row pair,
with `was_correct` decided by membership in the `.right` texts and a
constant triple-stumper flag / null value. -/
theorem parse_fj_shape {fj : FJInput} {recs : List FJRecord}
    (h : parse_fj fj = Except.ok recs) :
    recs.length = fj.table.length / 2 ∧
      ∀ rec ∈ recs,
        rec.was_correct = fj.right.contains rec.name ∧
          rec.was_triple_stumper = fj.right.isEmpty ∧
          rec.value = none ∧ rec.round_num = 3 ∧ rec.was_daily_double = false ∧
          rec.order_num = 1 ∧ rec.clue_location = "FJ" ∧ rec.was_revealed = true := by
  unfold parse_fj at h
  cases hlast : fj.ems.getLast? with
  | none => rw [hlast] at h; exact absurd h (by simp)
  | some cr =>
    rw [hlast] at h
    cases hmap : mapExcept fj_columns (pair_rows fj.table) with
    | error e => rw [hmap] at h; exact absurd h (by simp)
    | ok nws =>
      rw [hmap] at h
      cases h
      constructor
      · rw [List.length_map, mapExcept_ok_length hmap, pair_rows_length]
      · intro rec hrec
        rcases List.mem_map.mp hrec with ⟨nw, _, rfl⟩
        exact ⟨rfl, rfl, rfl, rfl, rfl, rfl, rfl, rfl⟩

/-! ### Stability of the episode sort -/

theorem filter_orderedInsert_pos (r : EpisodeRow → EpisodeRow → Prop) [DecidableRel r]
    (p : EpisodeRow → Bool) (x : EpisodeRow)
    (hx : p x = true) (hdom : ∀ y, p y = true → r x y) :
    ∀ l : List EpisodeRow, (List.orderedInsert r x l).filter p = x :: l.filter p := by
  intro l
  induction l with
  | nil => simp [List.orderedInsert, hx]
  | cons b t ih =>
    by_cases hrb : r x b
    · simp [List.orderedInsert, hrb, hx]
    · have hpb : p b = false := by
        cases hb : p b
        · rfl
        · exact absurd (hdom b hb) hrb
      simp [List.orderedInsert, hrb, hpb, ih]

theorem filter_orderedInsert_neg (r : EpisodeRow → EpisodeRow → Prop) [DecidableRel r]
    (p : EpisodeRow → Bool) (x : EpisodeRow) (hx : p x = false) :
    ∀ l : List EpisodeRow, (List.orderedInsert r x l).filter p = l.filter p := by
  intro l
  induction l with
  | nil => simp [List.orderedInsert, hx]
  | cons b t ih =>
    by_cases hrb : r x b
    · simp [List.orderedInsert, hrb, hx]
    · simp only [List.orderedInsert, if_neg hrb]
      cases hb : p b <;> simp [List.filter_cons, hb, ih]

/-- Stability of insertion sort: elements satisfying a predicate that
forces mutual comparability keep their relative order. -/
theorem filter_insertionSort (r : EpisodeRow → EpisodeRow → Prop) [DecidableRel r]
    (p : EpisodeRow → Bool) (hdom : ∀ a b, p a = true → p b = true → r a b) :
    ∀ l : List EpisodeRow, (List.insertionSort r l).filter p = l.filter p := by
  intro l
  induction l with
  | nil => rfl
  | cons a t ih =>
    show (List.orderedInsert r a (List.insertionSort r t)).filter p = _
    cases ha : p a
    · rw [filter_orderedInsert_neg r p a ha, ih]
      simp [List.filter_cons, ha]
    · rw [filter_orderedInsert_pos r p a ha (fun y hy => hdom a y ha hy), ih]
      simp [List.filter_cons, ha]

/-! ### Characterization of the best-match scan -/

theorem rat_mul_den (c : ℚ) : c * (c.den : ℚ) = (c.num : ℚ) := by
  have hden : ((c.den : ℚ)) ≠ 0 := by
    have h0 : (0 : ℚ) < (c.den : ℚ) := by exact_mod_cast c.pos
    exact h0.ne'
  conv_lhs => lhs; rw [← Rat.num_div_den c]
  exact div_mul_cancel₀ _ hden

theorem ratioReaches_iff (c : ℚ) (n d : Nat) :
    ratioReaches c n d = true ↔ c ≤ ratioValQ (n, d) := by
  unfold ratioReaches ratioValQ
  have hcden : (0 : ℚ) < (c.den : ℚ) := by exact_mod_cast c.pos
  by_cases hd : d = 0
  · rw [if_pos hd, if_pos hd, decide_eq_true_iff]
    rw [show (c ≤ (1 : ℚ)) ↔ ((c.num : ℚ) ≤ ((c.den : Nat) : ℚ)) from by
      rw [← mul_le_mul_right hcden, rat_mul_den, one_mul]]
    constructor <;> intro h <;> exact_mod_cast h
  · rw [if_neg hd, if_neg hd, decide_eq_true_iff]
    have hdpos : (0 : ℚ) < (d : ℚ) := by
      exact_mod_cast Nat.pos_of_ne_zero hd
    rw [le_div_iff hdpos,
      show (c * (d : ℚ) ≤ (((n, d).1 : Nat) : ℚ)) ↔
          ((c.num : ℚ) * (d : ℚ) ≤ (((n, d).1 : Nat) : ℚ) * ((c.den : Nat) : ℚ)) from by
        rw [← mul_le_mul_right hcden, mul_right_comm, rat_mul_den]]
    constructor <;> intro h <;> exact_mod_cast h

theorem fracLt_iff (n1 d1 n2 d2 : Nat) :
    fracLt n1 d1 n2 d2 = true ↔ ratioValQ (n1, d1) < ratioValQ (n2, d2) := by
  unfold fracLt ratioValQ
  by_cases h1 : d1 = 0
  · rw [if_pos h1, if_pos h1]
    by_cases h2 : d2 = 0
    · rw [if_pos h2, if_pos h2]
      simp
    · rw [if_neg h2, if_neg h2, decide_eq_true_iff]
      have hp2 : (0 : ℚ) < (d2 : ℚ) := by exact_mod_cast Nat.pos_of_ne_zero h2
      rw [lt_div_iff hp2, one_mul]
      constructor <;> intro h <;> exact_mod_cast h
  · rw [if_neg h1, if_neg h1]
    have hp1 : (0 : ℚ) < (d1 : ℚ) := by exact_mod_cast Nat.pos_of_ne_zero h1
    by_cases h2 : d2 = 0
    · rw [if_pos h2, if_pos h2, decide_eq_true_iff]
      rw [div_lt_one hp1]
      constructor <;> intro h <;> exact_mod_cast h
    · rw [if_neg h2, if_neg h2, decide_eq_true_iff]
      have hp2 : (0 : ℚ) < (d2 : ℚ) := by exact_mod_cast Nat.pos_of_ne_zero h2
      rw [div_lt_div_iff hp1 hp2]
      constructor <;> intro h <;> exact_mod_cast h

theorem fracEq_iff (n1 d1 n2 d2 : Nat) :
    fracEq n1 d1 n2 d2 = true ↔ ratioValQ (n1, d1) = ratioValQ (n2, d2) := by
  unfold fracEq ratioValQ
  by_cases h1 : d1 = 0
  · rw [if_pos h1, if_pos h1]
    by_cases h2 : d2 = 0
    · rw [if_pos h2, if_pos h2]
      simp
    · rw [if_neg h2, if_neg h2, decide_eq_true_iff]
      dsimp only
      have hp2 : (0 : ℚ) < (d2 : ℚ) := by exact_mod_cast Nat.pos_of_ne_zero h2
      rw [eq_div_iff hp2.ne', one_mul]
      constructor <;> intro h <;> exact_mod_cast h.symm
  · rw [if_neg h1, if_neg h1]
    have hp1 : (0 : ℚ) < (d1 : ℚ) := by exact_mod_cast Nat.pos_of_ne_zero h1
    by_cases h2 : d2 = 0
    · rw [if_pos h2, if_pos h2, decide_eq_true_iff]
      rw [div_eq_one_iff_eq hp1.ne']
      constructor <;> intro h <;> exact_mod_cast h
    · rw [if_neg h2, if_neg h2, decide_eq_true_iff]
      have hp2 : (0 : ℚ) < (d2 : ℚ) := by exact_mod_cast Nat.pos_of_ne_zero h2
      rw [div_eq_div_iff hp1.ne' hp2.ne']
      constructor <;> intro h <;> exact_mod_cast h

/-- The Bool tuple comparison agrees with the lexicographic order on
`(exact ratio, name)` pairs. -/
theorem scoredLt_iff (a b : (Nat × Nat) × String) :
    scoredLt a b = true ↔
      toLex (ratioValQ a.1, a.2) < toLex (ratioValQ b.1, b.2) := by
  unfold scoredLt
  rw [Prod.Lex.lt_iff]
  simp only [Bool.or_eq_true, Bool.and_eq_true, decide_eq_true_iff]
  constructor
  · rintro (h | ⟨he, hs⟩)
    · exact Or.inl ((fracLt_iff _ _ _ _).mp h)
    · exact Or.inr ⟨(fracEq_iff _ _ _ _).mp he, hs⟩
  · rintro (h | ⟨he, hs⟩)
    · exact Or.inl ((fracLt_iff _ _ _ _).mpr h)
    · exact Or.inr ⟨(fracEq_iff _ _ _ _).mpr he, hs⟩

theorem nlargest1_foldl_spec (l : List ((Nat × Nat) × String)) (b0 : (Nat × Nat) × String) :
    ∃ b, l.foldl nlargest1_step (some b0) = some b ∧ (b = b0 ∨ b ∈ l) ∧
      toLex (ratioValQ b0.1, b0.2) ≤ toLex (ratioValQ b.1, b.2) ∧
      ∀ c ∈ l, toLex (ratioValQ c.1, c.2) ≤ toLex (ratioValQ b.1, b.2) := by
  induction l generalizing b0 with
  | nil => exact ⟨b0, rfl, Or.inl rfl, le_refl _, by simp⟩
  | cons c t ih =>
    by_cases hlt : toLex (ratioValQ b0.1, b0.2) < toLex (ratioValQ c.1, c.2)
    · have hstep : nlargest1_step (some b0) c = some c := by
        show (if scoredLt b0 c = true then some c else some b0) = some c
        rw [if_pos ((scoredLt_iff b0 c).mpr hlt)]
      obtain ⟨b, h1, h2, h3, h4⟩ := ih c
      refine ⟨b, ?_, ?_, ?_, ?_⟩
      · rw [List.foldl_cons, hstep]; exact h1
      · exact Or.inr (h2.elim (fun e => e ▸ List.mem_cons_self c t)
          (List.mem_cons_of_mem c))
      · exact le_trans (le_of_lt hlt) h3
      · intro d hd
        rcases List.mem_cons.mp hd with rfl | hd
        · exact h3
        · exact h4 d hd
    · have hstep : nlargest1_step (some b0) c = some b0 := by
        show (if scoredLt b0 c = true then some c else some b0) = some b0
        rw [if_neg (fun hb => hlt ((scoredLt_iff b0 c).mp hb))]
      obtain ⟨b, h1, h2, h3, h4⟩ := ih b0
      refine ⟨b, ?_, ?_, ?_, ?_⟩
      · rw [List.foldl_cons, hstep]; exact h1
      · exact h2.elim Or.inl (fun hb => Or.inr (List.mem_cons_of_mem c hb))
      · exact h3
      · intro d hd
        rcases List.mem_cons.mp hd with rfl | hd
        · exact le_trans (le_of_not_lt hlt) h3
        · exact h4 d hd

theorem nlargest1_eq_some {l : List ((Nat × Nat) × String)} {b : (Nat × Nat) × String}
    (h : nlargest1 l = some b) :
    b ∈ l ∧ ∀ c ∈ l, toLex (ratioValQ c.1, c.2) ≤ toLex (ratioValQ b.1, b.2) := by
  cases l with
  | nil => exact absurd h (by simp [nlargest1])
  | cons c t =>
    have he : nlargest1 (c :: t) = t.foldl nlargest1_step (some c) := rfl
    rw [he] at h
    obtain ⟨b', h1, h2, h3, h4⟩ := nlargest1_foldl_spec t c
    rw [h1] at h
    cases h
    refine ⟨h2.elim (fun e => e ▸ List.mem_cons_self c t) (List.mem_cons_of_mem c), ?_⟩
    intro d hd
    rcases List.mem_cons.mp hd with rfl | hd
    · exact h3
    · exact h4 d hd

theorem nlargest1_eq_none {l : List ((Nat × Nat) × String)} (h : nlargest1 l = none) :
    l = [] := by
  cases l with
  | nil => rfl
  | cons c t =>
    have he : nlargest1 (c :: t) = t.foldl nlargest1_step (some c) := rfl
    rw [he] at h
    obtain ⟨b', h1, _, _, _⟩ := nlargest1_foldl_spec t c
    rw [h1] at h
    exact absurd h (by simp)

/-- When `get_close_matches(..., n=1)[0]` returns a name, that name is a
registry name whose ratio reaches the cutoff, and it dominates every
other above-cutoff candidate in the `(ratio, name)` tuple order. -/
theorem get_close_matches1_some {word : String} {poss : List String} {c : ℚ} {x : String}
    (h : get_close_matches1 word poss c = some x) :
    x ∈ poss ∧ c ≤ ratio x word ∧
      ∀ y ∈ poss, c ≤ ratio y word →
        toLex (ratio y word, y) ≤ toLex (ratio x word, x) := by
  rcases Option.map_eq_some'.mp h with ⟨b, hb, rfl⟩
  obtain ⟨hmem, hdom⟩ := nlargest1_eq_some hb
  rcases List.mem_filterMap.mp hmem with ⟨y, hy, hite⟩
  by_cases hcut : ratioReaches c (ratioNum y word) (ratioDen y word) = true
  · rw [if_pos hcut] at hite
    cases hite
    refine ⟨hy, (ratioReaches_iff _ _ _).mp hcut, ?_⟩
    intro z hz hzc
    have hzmem : ((ratioNum z word, ratioDen z word), z) ∈
        scored_candidates word poss c :=
      List.mem_filterMap.mpr ⟨z, hz,
        by rw [if_pos ((ratioReaches_iff _ _ _).mpr hzc)]⟩
    exact hdom _ hzmem
  · rw [if_neg hcut] at hite
    exact absurd hite (by simp)

/-- When `get_close_matches(..., n=1)` is empty (so indexing raises),
no registry name reaches the cutoff. -/
theorem get_close_matches1_none {word : String} {poss : List String} {c : ℚ}
    (h : get_close_matches1 word poss c = none) :
    ∀ y ∈ poss, ¬c ≤ ratio y word := by
  have hn : nlargest1 (scored_candidates word poss c) = none :=
    Option.map_eq_none'.mp h
  have he : scored_candidates word poss c = [] := nlargest1_eq_none hn
  intro y hy hcut
  have : ((ratioNum y word, ratioDen y word), y) ∈ scored_candidates word poss c :=
    List.mem_filterMap.mpr ⟨y, hy,
      by rw [if_pos ((ratioReaches_iff _ _ _).mpr hcut)]⟩
  rw [he] at this
  exact absurd this (by simp)

/-! ### Claims -/

/-- C1 counterexample: on a concrete round-1 board, the clue at traversal
position 1 is assigned the category at index 1 of the declared category
list (`"CB"`), not the category at index `⌊1/5⌋ = 0` (`"CA"`) that the
claim's category-major rule predicts. -/
theorem claim_C1_counterexample :
    ((parse_round 1 demoBoard d2010).toOption.bind (fun rows => rows[1]?)).map
        (fun row => row.category) = some "CB" ∧
      demoCats[(1 : Nat) / 5]? = some "CA" ∧ ("CB" : String) ≠ "CA" :=
  ⟨by rfl, by rfl, by decide⟩

/-- C1 (amended): the markup traversal of a round board is row-major, so
the clue at traversal position `i` (0-based, over the 30 cells) is
assigned the category at index `i % 6` of the round's declared category
list: positions 0, 6, 12, 18, 24 get category 1, positions 1, 7, 13, 19,
25 get category 2, and so on. -/
theorem claim_C1_amended (r : Nat) (b : Board) (dt : PyDate)
    (h6 : b.categories.length = 6) (h30 : b.cells.length = 30)
    (i : Nat) (hi : i < 30) :
    ((parse_round r b dt).toOption.bind (fun rows => rows[i]?)).map
        (fun row => row.category) = some (b.categories.getD (i % 6) "") := by
  rw [parse_round_eq r b dt h6 h30]
  show (((List.range 30).map (row_at r b dt))[i]?).map (fun row => row.category) = _
  rw [List.getElem?_map, List.getElem?_range hi]
  show some ((row_at r b dt i).category) = _
  rw [row_at_category, cats5_getD b.categories h6 i hi]

/-- C1 witness: the amended claim at round 1 of the demo board,
position 8 (category index 8 % 6 = 2). -/
theorem claim_C1_witness :
    ((parse_round 1 demoBoard d2010).toOption.bind (fun rows => rows[8]?)).map
        (fun row => row.category) = some (demoCats.getD (8 % 6) "") :=
  claim_C1_amended 1 demoBoard d2010 (by rfl) (by rfl) 8 (by decide)

/-- C2 counterexample: on a concrete board whose cell at traversal
position 7 is unrevealed, the emitted row has `was_revealed = false` but
its `value` is not null: `fillna` fills it with the board value
`1 * 2 * 200 = 400` of that position, so value inference is applied to
the unrevealed clue, contradicting the claim. -/
theorem claim_C2_counterexample :
    ((parse_round 1 demoBoard d2010).toOption.bind (fun rows => rows[7]?)).map
        (fun row => (row.was_revealed, row.value)) =
      some (false, some (Sum.inr 400)) := by
  rfl

/-- C2 (amended): for every unrevealed clue cell the pipeline emits
exactly one row (a single synthetic no-attempt responder) with
`was_revealed = false`, `was_correct` null and `wager` null; but
`was_triple_stumper` is left as NaN by the parser rather than set true,
and `value` is not null: `infer_missing_value` fills every missing value,
so the row receives the board value
`round_num * row_index * multiplier(date)` of its position. -/
theorem claim_C2_amended (r : Nat) (b : Board) (dt : PyDate)
    (h6 : b.categories.length = 6) (h30 : b.cells.length = 30)
    (i : Nat) (hi : i < 30)
    (hblank : (b.cells.getD i blank_cell).blank = true) :
    ((parse_round r b dt).toOption.bind (fun rows => rows[i]?)).map
        (fun row => (row.was_revealed, row.responders, row.wager,
          row.was_triple_stumper, row.value)) =
      some (false, [{ name := none, was_correct := none }], none, none,
        some (Sum.inr ((r : Int) * ((i / 6 + 1 : Nat) : Int) * money_mult dt))) := by
  have hcell : parse_clue_cell (b.cells.getD i blank_cell) =
      { clue_id := none, clue_location := none, answer := none, order_num := none,
        value := none, was_daily_double := none, wager := none,
        correct_response := none,
        responders := [{ name := none, was_correct := none }],
        was_triple_stumper := none, was_revealed := false } := by
    rw [parse_clue_cell, if_pos hblank]
  obtain ⟨hrev, hresp, hwag, hts, _, _⟩ := row_at_unchanged_of_cell r b dt i
  have hval := row_at_value_of_none r b dt i (by rw [hcell])
  rw [parse_round_eq r b dt h6 h30]
  show (((List.range 30).map (row_at r b dt))[i]?).map
      (fun row => (row.was_revealed, row.responders, row.wager,
        row.was_triple_stumper, row.value)) = _
  rw [List.getElem?_map, List.getElem?_range hi]
  show some ((row_at r b dt i).was_revealed, (row_at r b dt i).responders,
      (row_at r b dt i).wager, (row_at r b dt i).was_triple_stumper,
      (row_at r b dt i).value) = _
  rw [hrev, hresp, hwag, hts, hval, hcell]

/-- C2 witness: the amended claim at the unrevealed position 7 of the
demo board. -/
theorem claim_C2_witness :
    ((parse_round 1 demoBoard d2010).toOption.bind (fun rows => rows[7]?)).map
        (fun row => (row.was_revealed, row.responders, row.wager,
          row.was_triple_stumper, row.value)) =
      some (false, [{ name := none, was_correct := none }], none, none,
        some (Sum.inr ((1 : Int) * ((7 / 6 + 1 : Nat) : Int) * money_mult d2010))) :=
  claim_C2_amended 1 demoBoard d2010 (by rfl) (by rfl) 7 (by decide) (by rfl)

/-- C5 (confirmed): a daily-double clue at traversal position `i` of
round `r` gets the inferred coordinate `loc_at r i`, whose row index is
`i / 6 + 1`, and its inferred value is
`r * row_index * (200 if date ≥ 2001-11-26 else 100)`; the final-round
records always keep a null value. -/
theorem claim_C5_value_inference :
    (∀ (r : Nat) (b : Board) (dt : PyDate),
      b.categories.length = 6 → b.cells.length = 30 →
      ∀ i, i < 30 → (b.cells.getD i blank_cell).blank = false →
      ∀ w, (b.cells.getD i blank_cell).dd = some w →
      ((parse_round r b dt).toOption.bind (fun rows => rows[i]?)).map
          (fun row => (row.clue_location, row.value)) =
        some (some (loc_at r i),
          some (Sum.inr ((r : Int) * ((i / 6 + 1 : Nat) : Int) * money_mult dt)))) ∧
    (∀ i, i < 30 → ∀ r, last_char_int (loc_at r i) = some ((i / 6 + 1 : Nat) : Int)) ∧
    (∀ dt, money_mult dt = if PyDate.le ⟨2001, 11, 26⟩ dt then 200 else 100) ∧
    (∀ (fj : FJInput) (recs : List FJRecord), parse_fj fj = Except.ok recs →
      ∀ rec ∈ recs, rec.value = none) := by
  refine ⟨?_, loc_at_digit, fun _ => rfl, ?_⟩
  · intro r b dt h6 h30 i hi hrev w hdd
    have hvnone : (parse_clue_cell (b.cells.getD i blank_cell)).value = none := by
      rw [parse_clue_cell, if_neg (by rw [hrev]; simp)]
      show ((parse_value (b.cells.getD i blank_cell)).value.map Sum.inl) = none
      unfold parse_value
      rw [hdd]
      rfl
    have hval := row_at_value_of_none r b dt i hvnone
    rw [parse_round_eq r b dt h6 h30]
    show (((List.range 30).map (row_at r b dt))[i]?).map
        (fun row => (row.clue_location, row.value)) = _
    rw [List.getElem?_map, List.getElem?_range hi]
    show some ((row_at r b dt i).clue_location, (row_at r b dt i).value) = _
    rw [row_at_clue_location, hval]
  · intro fj recs h rec hrec
    exact ((parse_fj_shape h).2 rec hrec).2.2.1

/-- C5 witness: the daily double at position 4 of the round-2 demo board
on a post-2001 date infers value `2 * 1 * 200 = 400`, and the demo
final round keeps null values. -/
theorem claim_C5_witness :
    ((parse_round 2 demoBoard d2010).toOption.bind (fun rows => rows[4]?)).map
        (fun row => (row.clue_location, row.value)) =
      some (some (loc_at 2 4),
        some (Sum.inr ((2 : Int) * ((4 / 6 + 1 : Nat) : Int) * money_mult d2010))) ∧
    ∀ rec ∈ recsDemoOneRight, rec.value = none :=
  ⟨claim_C5_value_inference.1 2 demoBoard d2010 (by rfl) (by rfl) 4 (by decide)
      (by decide) "DD: $1,000" (by rfl),
   claim_C5_value_inference.2.2.2 fjDemoOneRight recsDemoOneRight (by rfl)⟩

/-- C6 (confirmed): on a 30-cell round the assigned `clue_location`
column is exactly the canonical 30-coordinate list, positionally (for any
board contents), those 30 coordinates are pairwise distinct, and the
round-2 coordinates are the round-1 coordinates with the fixed `D` in
front. -/
theorem claim_C6_locations (r : Nat) (b : Board) (dt : PyDate)
    (h6 : b.categories.length = 6) (h30 : b.cells.length = 30) :
    ((parse_round r b dt).toOption.map
        (fun rows => rows.map (fun row => row.clue_location))) =
      some (clue_locations.map (fun l => some (if r = 2 then "D" ++ l else l))) ∧
    (clue_locations.map (fun l => (if r = 2 then "D" ++ l else l))).Nodup ∧
    clue_locations.length = 30 ∧
    (∀ i, loc_at 2 i = "D" ++ loc_at 1 i) := by
  refine ⟨?_, ?_, by rfl, fun i => rfl⟩
  · rw [parse_round_eq r b dt h6 h30]
    show some (((List.range 30).map (row_at r b dt)).map
        (fun row => row.clue_location)) = _
    rw [List.map_map]
    congr 1
    have he : ∀ i ∈ List.range 30,
        ((fun row => row.clue_location) ∘ row_at r b dt) i =
          (fun i => some (loc_at r i)) i := by
      intro i _
      exact row_at_clue_location r b dt i
    rw [List.map_congr_left he]
    by_cases hr : r = 2
    · subst hr; decide
    · rw [show (List.range 30).map (fun i => some (loc_at r i)) =
          (List.range 30).map (fun i => some (clue_locations.getD i "")) from
            List.map_congr_left (fun i _ => by rw [loc_at, if_neg hr]),
          show clue_locations.map (fun l => some (if r = 2 then "D" ++ l else l)) =
          clue_locations.map (fun l => some l) from
            List.map_congr_left (fun l _ => by rw [if_neg hr])]
      decide
  · by_cases hr : r = 2
    · subst hr; decide
    · rw [show clue_locations.map (fun l => (if r = 2 then "D" ++ l else l)) =
          clue_locations.map (fun l => l) from
            List.map_congr_left (fun l _ => by rw [if_neg hr])]
      decide

/-- C6 witness: the location column of round 2 of the demo board. -/
theorem claim_C6_witness :
    ((parse_round 2 demoBoard d2010).toOption.map
        (fun rows => rows.map (fun row => row.clue_location))) =
      some (clue_locations.map (fun l => some (if 2 = 2 then "D" ++ l else l))) :=
  (claim_C6_locations 2 demoBoard d2010 (by rfl) (by rfl)).1

/-- C9 (confirmed): `infer_clue_location` is total only on 30-row round
frames: any other row count raises the pandas length-mismatch error (so
a malformed board aborts instead of getting incomplete coordinates), and on
exactly 30 rows it succeeds, assigning every row its positional
coordinate. -/
theorem claim_C9_length_guard :
    (∀ rows : List RoundRow, rows.length ≠ 30 →
      infer_clue_location rows =
        Except.error "Length of values does not match length of index") ∧
    (∀ rows : List RoundRow, rows.length = 30 →
      ∃ out, infer_clue_location rows = Except.ok out ∧
        out.map (fun row => row.clue_location) =
          (rows.zip clue_locations).map
            (fun rl => some (if rl.1.round_num = 2 then "D" ++ rl.2 else rl.2))) := by
  constructor
  · intro rows hne
    rw [infer_clue_location, if_neg (by rw [show clue_locations.length = 30 from rfl]; exact hne)]
  · intro rows h30
    rw [infer_clue_location, if_pos (by rw [h30]; rfl)]
    refine ⟨_, rfl, ?_⟩
    rw [List.map_map, List.map_map]
    apply List.map_congr_left
    intro rl _
    simp only [Function.comp]
    by_cases hr : rl.1.round_num = 2
    · rw [if_pos (show ({ rl.1 with clue_location := some rl.2 } : RoundRow).round_num = 2
          from hr)]
      show some ("D" ++ rl.2) = some (if rl.1.round_num = 2 then "D" ++ rl.2 else rl.2)
      rw [if_pos hr]
    · rw [if_neg (show ¬({ rl.1 with clue_location := some rl.2 } : RoundRow).round_num = 2
          from hr)]
      show some rl.2 = some (if rl.1.round_num = 2 then "D" ++ rl.2 else rl.2)
      rw [if_neg hr]

/-- C9 witness: a 29-row frame errors; a 30-row frame succeeds. -/
theorem claim_C9_witness :
    infer_clue_location ((List.range 29).map (fun i => row_stage2 1 demoBoard i)) =
        Except.error "Length of values does not match length of index" ∧
      ∃ out, infer_clue_location
          ((List.range 30).map (fun i => row_stage2 1 demoBoard i)) = Except.ok out ∧
        out.map (fun row => row.clue_location) =
          ((((List.range 30).map (fun i => row_stage2 1 demoBoard i)).zip
            clue_locations).map
            (fun rl => some (if rl.1.round_num = 2 then "D" ++ rl.2 else rl.2))) :=
  ⟨claim_C9_length_guard.1 _ (by simp),
   claim_C9_length_guard.2 _ (by simp)⟩

/-- C10 (confirmed): the final-round extractor forms attempts only from
complete (even, odd) markup row pairs: `pair_rows` emits `⌊n/2⌋` rows
from an `n`-row table, an odd trailing row is silently dropped, and
every successful `parse_fj` emits exactly `⌊n/2⌋` attempt records. -/
theorem claim_C10_fj_pairing :
    (∀ t : List (List String), (pair_rows t).length = t.length / 2) ∧
    (∀ t : List (List String), t.length % 2 = 0 →
      ∀ x, pair_rows (t ++ [x]) = pair_rows t) ∧
    (∀ (fj : FJInput) (recs : List FJRecord), parse_fj fj = Except.ok recs →
      recs.length = fj.table.length / 2) :=
  ⟨pair_rows_length, pair_rows_even_append,
   fun _ _ h => (parse_fj_shape h).1⟩

/-- C10 witness: a 5-row table pairs into 2 attempts with the odd row
dropped, and the demo final round emits `4 / 2 = 2` records. -/
theorem claim_C10_witness :
    (pair_rows [["a"], ["b"], ["c"], ["d"], ["e"]]).length = 5 / 2 ∧
      pair_rows ([["a"], ["b"], ["c"], ["d"]] ++ [["e"]]) =
        pair_rows [["a"], ["b"], ["c"], ["d"]] ∧
      recsDemoOneRight.length = fjDemoOneRight.table.length / 2 :=
  ⟨claim_C10_fj_pairing.1 _,
   claim_C10_fj_pairing.2.1 [["a"], ["b"], ["c"], ["d"]] (by decide) ["e"],
   claim_C10_fj_pairing.2.2 fjDemoOneRight recsDemoOneRight (by rfl)⟩

/-- Function `parse_response` always emits at least one attempt and at most one
correct attempt (there is at most one `.right` element and every `.wrong`
element becomes an incorrect attempt). -/
theorem parse_response_attempts (frag : ResponseFragment) :
    1 ≤ (parse_response frag).responders.length ∧
      (parse_response frag).responders.countP
        (fun a => a.was_correct == some true) ≤ 1 := by
  unfold parse_response
  set correctOnes : List Responder :=
    (match frag.right with
     | some n => [{ name := some n, was_correct := some true }]
     | none => []) with hc
  set incorrectOnes : List Responder :=
    (frag.wrong.filter (fun t => t ≠ "Triple Stumper")).map
      (fun t => { name := some t, was_correct := some false }) with hinc
  have hci : incorrectOnes.countP (fun a => a.was_correct == some true) = 0 := by
    rw [hinc, List.countP_eq_zero]
    intro a ha
    rcases List.mem_map.mp ha with ⟨t, _, rfl⟩
    simp
  have hcc : correctOnes.countP (fun a => a.was_correct == some true) ≤ 1 := by
    rw [hc]
    cases frag.right <;> simp [List.countP_cons]
  by_cases he : (correctOnes ++ incorrectOnes).isEmpty
  · rw [if_pos he]
    exact ⟨by simp, by simp [List.countP_cons]⟩
  · rw [if_neg he]
    refine ⟨?_, ?_⟩
    · show 1 ≤ (correctOnes ++ incorrectOnes).length
      have : correctOnes ++ incorrectOnes ≠ [] := by
        intro h0
        rw [h0] at he
        exact he rfl
      cases h0 : correctOnes ++ incorrectOnes
      · exact absurd h0 this
      · simp
    · show (correctOnes ++ incorrectOnes).countP (fun a => a.was_correct == some true) ≤ 1
      rw [List.countP_append, hci]
      omega

/-- C4 counterexample: on a final round where both contestants answer
correctly, `parse_fj` emits two attempts with `was_correct = true`,
refuting the "at most one correct attempt" claim for the final-round
clue. -/
theorem claim_C4_counterexample :
    (parse_fj fjDemoBothRight).toOption.map
        (fun recs => recs.countP (fun rec => rec.was_correct)) = some 2 := by
  rfl

/-- C4 (amended): every regular-round clue (revealed or not) has at least
one attempt and at most one correct attempt; the final-round clue has one
attempt per complete response-table row pair, and an attempt is correct
exactly when its raw name is in the correct-responder set, so several
final-round attempts can be correct. -/
theorem claim_C4_amended :
    (∀ cell : ClueCell, 1 ≤ (parse_clue_cell cell).responders.length ∧
      (parse_clue_cell cell).responders.countP
        (fun a => a.was_correct == some true) ≤ 1) ∧
    (∀ (fj : FJInput) (recs : List FJRecord), parse_fj fj = Except.ok recs →
      recs.length = fj.table.length / 2 ∧
      ∀ rec ∈ recs, rec.was_correct = fj.right.contains rec.name) := by
  constructor
  · intro cell
    by_cases hb : cell.blank
    · rw [parse_clue_cell, if_pos hb]
      exact ⟨by decide, by decide⟩
    · rw [parse_clue_cell, if_neg hb]
      exact parse_response_attempts cell.response
  · intro fj recs h
    exact ⟨(parse_fj_shape h).1, fun rec hrec => ((parse_fj_shape h).2 rec hrec).1⟩

/-- C4 witness: the amended claim at a concrete revealed cell and at the
demo final round. -/
theorem claim_C4_witness :
    (1 ≤ (parse_clue_cell (stdCell 0)).responders.length ∧
      (parse_clue_cell (stdCell 0)).responders.countP
        (fun a => a.was_correct == some true) ≤ 1) ∧
    (recsDemoOneRight.length = fjDemoOneRight.table.length / 2 ∧
      ∀ rec ∈ recsDemoOneRight,
        rec.was_correct = fjDemoOneRight.right.contains rec.name) :=
  ⟨claim_C4_amended.1 (stdCell 0),
   claim_C4_amended.2 fjDemoOneRight recsDemoOneRight (by rfl)⟩

/-- C3 counterexample: a revealed clue with one incorrect attempt, no
correct attempt and no literal `Triple Stumper` marker gets
`was_triple_stumper = false`, refuting the claimed "true iff no attempt
is correct". -/
theorem claim_C3_counterexample :
    (parse_response fragWrongOnly).was_triple_stumper = false ∧
      ∀ a ∈ (parse_response fragWrongOnly).responders, a.was_correct ≠ some true := by
  decide

/-- C3 (amended): `was_triple_stumper` reflects the literal
`Triple Stumper` marker, not the attempts. For a regular-round clue the
claimed equivalence (flag true iff no attempt is correct) holds exactly
when the fragment carries the marker precisely when it has no
correct-responder element; for the final round it holds whenever every
tagged correct responder actually appears among the table rows. -/
theorem claim_C3_amended :
    (∀ frag : ResponseFragment,
      (frag.wrong.contains "Triple Stumper" = true ↔ frag.right = none) →
      ((parse_response frag).was_triple_stumper = true ↔
        ∀ a ∈ (parse_response frag).responders, a.was_correct ≠ some true)) ∧
    (∀ (fj : FJInput) (recs : List FJRecord), parse_fj fj = Except.ok recs →
      (∀ cr ∈ fj.right, ∃ rec ∈ recs, rec.name = cr) →
      ∀ rec ∈ recs,
        (rec.was_triple_stumper = true ↔ ∀ r2 ∈ recs, r2.was_correct ≠ true)) := by
  constructor
  · intro frag hiff
    obtain ⟨cr, rt, wr⟩ := frag
    cases rt with
    | some n =>
      have hts : wr.contains "Triple Stumper" = false := by
        cases hcon : wr.contains "Triple Stumper"
        · rfl
        · exact absurd (hiff.mp hcon) (by simp)
      have hts2 : "Triple Stumper" ∉ wr := by simpa using hts
      have h1 : (parse_response ⟨cr, some n, wr⟩).was_triple_stumper = false := by
        simp [parse_response, hts2]
      have h2 : ({ name := some n, was_correct := some true } : Responder) ∈
          (parse_response ⟨cr, some n, wr⟩).responders := by
        simp [parse_response]
      rw [h1]
      simp only [Bool.false_eq_true, false_iff]
      intro hall
      exact hall _ h2 rfl
    | none =>
      have hcon2 : "Triple Stumper" ∈ wr := by
        have := hiff.mpr rfl
        simpa using this
      have h1 : (parse_response ⟨cr, none, wr⟩).was_triple_stumper = true := by
        simp [parse_response, hcon2]
        split <;> rfl
      have h2 : ∀ a ∈ (parse_response ⟨cr, none, wr⟩).responders,
          a.was_correct ≠ some true := by
        intro a ha
        simp [parse_response] at ha
        split at ha
        · simp at ha
          subst ha
          simp
        · simp at ha
          rcases ha with ⟨t, -, rfl⟩
          simp
      exact iff_of_true h1 h2
  · intro fj recs h hcov rec hrec
    obtain ⟨-, hall⟩ := parse_fj_shape h
    obtain ⟨-, hts, -⟩ := hall rec hrec
    cases hre : fj.right with
    | nil =>
      have h1 : rec.was_triple_stumper = true := by rw [hts, hre]; rfl
      refine iff_of_true h1 ?_
      intro r2 hr2 hc
      obtain ⟨hwc2, -⟩ := hall r2 hr2
      rw [hwc2, hre] at hc
      exact absurd hc (by simp)
    | cons cr rest =>
      have h1 : rec.was_triple_stumper = false := by rw [hts, hre]; rfl
      obtain ⟨rec0, hrec0, hname⟩ := hcov cr (by rw [hre]; exact List.mem_cons_self _ _)
      obtain ⟨hwc0, -⟩ := hall rec0 hrec0
      have hc0 : rec0.was_correct = true := by
        rw [hwc0, hname, hre]
        simp
      rw [h1]
      simp only [Bool.false_eq_true, false_iff]
      intro hall2
      exact hall2 rec0 hrec0 hc0

/-- C3 witness: the amended equivalence at a concrete marker-carrying
fragment and at the demo final round. -/
theorem claim_C3_witness :
    ((parse_response fragMarkerOnly).was_triple_stumper = true ↔
      ∀ a ∈ (parse_response fragMarkerOnly).responders, a.was_correct ≠ some true) ∧
    ∀ rec ∈ recsDemoOneRight,
      (rec.was_triple_stumper = true ↔
        ∀ r2 ∈ recsDemoOneRight, r2.was_correct ≠ true) :=
  ⟨claim_C3_amended.1 fragMarkerOnly (by decide),
   claim_C3_amended.2 fjDemoOneRight recsDemoOneRight (by rfl) (by decide)⟩

/-- C7 (confirmed): the assembled episode row sequence is sorted by
(round_num ascending, numeric order_num ascending, missing order last),
it is a permutation of the flattened pre-sort rows, and rows sharing a
(round_num, order_num) key — in particular the attempts of one clue —
keep their original relative order (the sort is stable). -/
theorem claim_C7_sorted_stable (rrows : List RoundRow) (fjrecs : List FJRecord) :
    List.Sorted keyLe (assemble_episode rrows fjrecs) ∧
      (assemble_episode rrows fjrecs).Perm (episode_rows rrows fjrecs) ∧
      ∀ (rn : Nat) (onum : Option Int),
        (assemble_episode rrows fjrecs).filter
            (fun row => row.round_num == rn && row.order_num == onum) =
          (episode_rows rrows fjrecs).filter
            (fun row => row.round_num == rn && row.order_num == onum) := by
  refine ⟨List.sorted_insertionSort keyLe _, List.perm_insertionSort keyLe _, ?_⟩
  intro rn onum
  apply filter_insertionSort
  intro a b ha hb
  have ha' := ha
  have hb' := hb
  simp only [Bool.and_eq_true, beq_iff_eq] at ha' hb'
  show keyOf a ≤ keyOf b
  have : keyOf a = keyOf b := by
    unfold keyOf
    rw [ha'.1, ha'.2, hb'.1, hb'.2]
  exact le_of_eq this

/-- C8 counterexample: resolution is case-sensitive, not case-insensitive
as claimed: with registry `{"AB": 1}` the observed string `"ab"` has
perfect case-insensitive similarity to `"AB"` (so the claimed resolver
would return id 1) but its case-sensitive difflib ratio is 0, below the
cutoff, so the code raises `IndexError` instead. -/
theorem claim_C8_counterexample :
    name_to_full_name_map ["ab"] demoRegistryCaps =
        Except.error "list index out of range" ∧
      ratio_case_insensitive "AB" "ab" = 1 ∧ ratio "AB" "ab" = 0 := by
  refine ⟨by rfl, ?_, ?_⟩
  · show ratioValQ (ratioNum (pyLower "AB") (pyLower "ab"),
      ratioDen (pyLower "AB") (pyLower "ab")) = 1
    rw [(by decide : ratioNum (pyLower "AB") (pyLower "ab") = 4),
        (by decide : ratioDen (pyLower "AB") (pyLower "ab") = 4)]
    norm_num [ratioValQ]
  · show ratioValQ (ratioNum "AB" "ab", ratioDen "AB" "ab") = 0
    rw [(by decide : ratioNum "AB" "ab" = 0),
        (by decide : ratioDen "AB" "ab" = 4)]
    norm_num [ratioValQ]

set_option maxRecDepth 16384 in
/-- C8 (amended): `get_close_matches(..., n=1, cutoff=0.01)` returns the
registry name maximizing the case-SENSITIVE difflib ratio, with ratio
ties broken toward the lexicographically greater name (not declaration
order); when no candidate reaches the cutoff the `[0]` indexing raises
(modelled as the error result). With the spec's example registry,
"Jerome" resolves to Jerome Wilson, id 1, and an input sharing no
characters with any registry name fails. -/
theorem claim_C8_amended :
    (∀ (word : String) (poss : List String) (c : ℚ) (x : String),
      get_close_matches1 word poss c = some x →
      x ∈ poss ∧ c ≤ ratio x word ∧
        ∀ y ∈ poss, c ≤ ratio y word →
          toLex (ratio y word, y) ≤ toLex (ratio x word, x)) ∧
    (∀ (word : String) (poss : List String) (c : ℚ),
      get_close_matches1 word poss c = none → ∀ y ∈ poss, ¬c ≤ ratio y word) ∧
    cutoff001 = 1 / 100 ∧
    name_to_full_name_map ["Jerome"] demoRegistry =
      Except.ok ([("Jerome", "Jerome Wilson")], [("Jerome", "1")]) ∧
    name_to_full_name_map ["00"] demoRegistry =
      Except.error "list index out of range" :=
  ⟨fun _ _ _ _ h => get_close_matches1_some h,
   fun _ _ _ h => get_close_matches1_none h,
   by norm_num [cutoff001], by rfl, by rfl⟩

set_option maxRecDepth 16384 in
/-- C8 witness: instantiating the characterization at the spec's example
shows the accepted candidate "Jerome Wilson" clears the 0.01 cutoff. -/
theorem claim_C8_witness :
    cutoff001 ≤ ratio "Jerome Wilson" "Jerome" :=
  (claim_C8_amended.1 "Jerome" ["Jerome Wilson", "Jenny Ames"] cutoff001
      "Jerome Wilson" (by decide)).2.1

end JArchive
